import Mathlib

/-!
# Verification of the BlueDucky L2CAP HID session manager and Duckyscript interpreter

Shallow embedding of `BlueDucky.py` (the repository's core file).  Python
strings are modelled as `List Char` (`PyStr`); machine bytes as `Nat`.
Character classification (`isdigit`, `isalpha`, `isupper`, `lower`, `upper`)
is modelled with Lean's ASCII notion, which agrees with Python on ASCII
input; non-ASCII-specific Python behaviour (Unicode letters and digits) is
outside this model, and theorems about scripts only rely on ASCII input.

Transport behaviour (the Bluetooth socket) is modelled environmentally: a
send either succeeds or makes the client raise
`ReconnectionRequiredException` (via `reconnect()`), selected by a failure
schedule `failAt : Option Nat` naming the index of the send call at which
the transport fails.  Logging and real-time sleeps have no modelled state.
-/

namespace BlueDucky

/-- Python strings as character lists. -/
abbrev PyStr := List Char

/-- ASCII whitespace recognised by Python's `str.strip` / `str.split`. -/
def py_isspace (c : Char) : Bool :=
  c = ' ' || c = '\t' || c = '\n' || c = '\r' || c = '\x0b' || c = '\x0c'

/-- Python `str.strip()`: remove leading and trailing whitespace. -/
def py_strip (s : PyStr) : PyStr :=
  ((s.dropWhile py_isspace).reverse.dropWhile py_isspace).reverse

/-- Python `s.startswith(p)`. -/
def py_startswith (s p : PyStr) : Bool :=
  List.isPrefixOf p s

/-- Python `sub in s` (substring containment). -/
def py_contains (s sub : PyStr) : Bool :=
  match s with
  | [] => List.isPrefixOf sub []
  | c :: t => List.isPrefixOf sub (c :: t) || py_contains t sub

/-- Python `str.split()` with no argument: split on whitespace runs. -/
def py_split (s : PyStr) : List PyStr :=
  (List.splitOnP py_isspace s).filter (fun t => !t.isEmpty)

/-- Python `str.upper()` (ASCII). -/
def py_upper (s : PyStr) : PyStr := s.map Char.toUpper

/-- Python `str.lower()` (ASCII). -/
def py_lower (s : PyStr) : PyStr := s.map Char.toLower

/-- Value of a non-empty all-digit string, `none` otherwise. -/
def py_digits_val : PyStr → Option Nat
  | [] => none
  | [c] => if c.isDigit then some (c.toNat - '0'.toNat) else none
  | c :: rest =>
    if c.isDigit then
      match py_digits_val rest with
      | some n => some ((c.toNat - '0'.toNat) * 10 ^ rest.length + n)
      | none => none
    else none

/-- Python `int(s)` on a whitespace-free token: optional sign, then digits.
(Underscore digit grouping, accepted by CPython, is not modelled.) -/
def py_int (s : PyStr) : Option Int :=
  match s with
  | '-' :: rest => (py_digits_val rest).map (fun n => -(n : Int))
  | '+' :: rest => (py_digits_val rest).map (fun n => (n : Int))
  | _ => (py_digits_val s).map (fun n => (n : Int))

/-- `Modifier_Codes` enum: `getattr(Modifier_Codes, name)` as a partial map. -/
def modifier_codes_attr : String → Option Nat
  | "CTRL" => some 0x01
  | "RIGHTCTRL" => some 0x10
  | "SHIFT" => some 0x02
  | "RIGHTSHIFT" => some 0x20
  | "ALT" => some 0x04
  | "RIGHTALT" => some 0x40
  | "GUI" => some 0x08
  | "WINDOWS" => some 0x08
  | "COMMAND" => some 0x08
  | "RIGHTGUI" => some 0x80
  | _ => none

/-- `Key_Codes` enum: `getattr(Key_Codes, name)` as a partial map. -/
def key_codes_attr : String → Option Nat
  | "NONE" => some 0x00
  | "a" => some 0x04
  | "b" => some 0x05
  | "c" => some 0x06
  | "d" => some 0x07
  | "e" => some 0x08
  | "f" => some 0x09
  | "g" => some 0x0a
  | "h" => some 0x0b
  | "i" => some 0x0c
  | "j" => some 0x0d
  | "k" => some 0x0e
  | "l" => some 0x0f
  | "m" => some 0x10
  | "n" => some 0x11
  | "o" => some 0x12
  | "p" => some 0x13
  | "q" => some 0x14
  | "r" => some 0x15
  | "s" => some 0x16
  | "t" => some 0x17
  | "u" => some 0x18
  | "v" => some 0x19
  | "w" => some 0x1a
  | "x" => some 0x1b
  | "y" => some 0x1c
  | "z" => some 0x1d
  | "_1" => some 0x1e
  | "_2" => some 0x1f
  | "_3" => some 0x20
  | "_4" => some 0x21
  | "_5" => some 0x22
  | "_6" => some 0x23
  | "_7" => some 0x24
  | "_8" => some 0x25
  | "_9" => some 0x26
  | "_0" => some 0x27
  | "ENTER" => some 0x28
  | "ESCAPE" => some 0x29
  | "BACKSPACE" => some 0x2a
  | "TAB" => some 0x2b
  | "SPACE" => some 0x2c
  | "MINUS" => some 0x2d
  | "EQUAL" => some 0x2e
  | "LEFTBRACE" => some 0x2f
  | "RIGHTBRACE" => some 0x30
  | "CAPSLOCK" => some 0x39
  | "VOLUME_UP" => some 0x3b
  | "VOLUME_DOWN" => some 0xee
  | "SEMICOLON" => some 0x33
  | "COMMA" => some 0x36
  | "PERIOD" => some 0x37
  | "SLASH" => some 0x38
  | "PIPE" => some 0x31
  | "BACKSLASH" => some 0x31
  | "GRAVE" => some 0x35
  | "APOSTROPHE" => some 0x34
  | "LEFT_BRACKET" => some 0x2f
  | "RIGHT_BRACKET" => some 0x30
  | "DOT" => some 0x37
  | "RIGHT" => some 0x4f
  | "LEFT" => some 0x50
  | "DOWN" => some 0x51
  | "UP" => some 0x52
  | "EXCLAMATION_MARK" => some 0x1e
  | "AT_SYMBOL" => some 0x1f
  | "HASHTAG" => some 0x20
  | "DOLLAR" => some 0x21
  | "PERCENT_SYMBOL" => some 0x22
  | "CARET_SYMBOL" => some 0x23
  | "AMPERSAND_SYMBOL" => some 0x24
  | "ASTERISK_SYMBOL" => some 0x25
  | "OPEN_PARENTHESIS" => some 0x26
  | "CLOSE_PARENTHESIS" => some 0x27
  | "UNDERSCORE_SYMBOL" => some 0x2d
  | "QUOTE" => some 0x34
  | "QUESTIONMARK" => some 0x38
  | "KEYPADPLUS" => some 0x57
  | _ => none

/-- `char_to_key_code`: the `shift_char_map` lookup, returning the
`Key_Codes` attribute *name* (the source returns the name string, not the
code). -/
def char_to_key_code : Char → Option String
  | '!' => some "EXCLAMATION_MARK"
  | '@' => some "AT_SYMBOL"
  | '#' => some "HASHTAG"
  | '$' => some "DOLLAR"
  | '%' => some "PERCENT_SYMBOL"
  | '^' => some "CARET_SYMBOL"
  | '&' => some "AMPERSAND_SYMBOL"
  | '*' => some "ASTERISK_SYMBOL"
  | '(' => some "OPEN_PARENTHESIS"
  | ')' => some "CLOSE_PARENTHESIS"
  | '_' => some "UNDERSCORE_SYMBOL"
  | '+' => some "KEYPADPLUS"
  | '\x7b' => some "LEFTBRACE"
  | '\x7d' => some "RIGHTBRACE"
  | ':' => some "SEMICOLON"
  | '\\' => some "BACKSLASH"
  | '"' => some "QUOTE"
  | '<' => some "COMMA"
  | '>' => some "DOT"
  | '?' => some "QUESTIONMARK"
  | 'A' => some "a"
  | 'B' => some "b"
  | 'C' => some "c"
  | 'D' => some "d"
  | 'E' => some "e"
  | 'F' => some "f"
  | 'G' => some "g"
  | 'H' => some "h"
  | 'I' => some "i"
  | 'J' => some "j"
  | 'K' => some "k"
  | 'L' => some "l"
  | 'M' => some "m"
  | 'N' => some "n"
  | 'O' => some "o"
  | 'P' => some "p"
  | 'Q' => some "q"
  | 'R' => some "r"
  | 'S' => some "s"
  | 'T' => some "t"
  | 'U' => some "u"
  | 'V' => some "v"
  | 'W' => some "w"
  | 'X' => some "x"
  | 'Y' => some "y"
  | 'Z' => some "z"
  | _ => none

/-- The interpreter's `shift_required_characters` string. -/
def shift_required_characters : PyStr :=
  "!@#$%^&*()_+\x7b\x7d|:\"<>?ABCDEFGHIJKLMNOPQRSTUVWXYZ".toList

/-- An argument to `encode_keyboard_input`: a `Key_Codes` member, a
`Modifier_Codes` member, or anything else (e.g. a string, which the
`isinstance` checks silently ignore). -/
inductive HidArg where
  | key (v : Nat) : HidArg
  | mod (v : Nat) : HidArg
  | other : HidArg
deriving DecidableEq

/-- The keycodes collected from the arguments, in order. -/
def hid_keycodes (args : List HidArg) : List Nat :=
  args.filterMap fun a =>
    match a with
    | .key v => some v
    | _ => none

/-- The modifier flags OR-accumulated from the arguments. -/
def hid_flags (args : List HidArg) : Nat :=
  args.foldl (fun f a =>
    match a with
    | .mod v => f ||| v
    | _ => f) 0

/-- `L2CAPClient.encode_keyboard_input`: collect keycodes and OR modifier
flags from the arguments, assert at most 7 keycodes (`none` = the assertion
fails, raising `AssertionError`), zero-pad to 7 slots and prepend the
4-byte header `0xa1 0x01 flags 0x00`. -/
def encode_keyboard_input (args : List HidArg) : Option (List Nat) :=
  let keycodes := hid_keycodes args
  if keycodes.length ≤ 7 then
    some ([0xa1, 0x01, hid_flags args, 0x00] ++
      (keycodes ++ List.replicate (7 - keycodes.length) 0))
  else
    none

/-- The mutable state of an `L2CAPClient`: the `connected` flag and the
held socket object (`some ()` when a socket is assigned, `none` when
`self.sock is None`). -/
structure L2CAPState where
  connected : Bool
  sock : Option Unit
deriving DecidableEq

/-- Behaviour of the underlying non-blocking socket during one
`attempt_send` window (environmental input). -/
inductive SockOutcome where
  | delivered
  | wouldBlock
  | btError
  | otherError
deriving DecidableEq

/-- Observable result of one `L2CAPClient.send` call. -/
inductive SendOutcome where
  | sent
  | dropped
  | reconnectionRaised
  | exceptionRaised
deriving DecidableEq

/-- `L2CAPClient.reconnect`: unconditionally raises
`ReconnectionRequiredException`; it touches neither the socket nor the
`connected` flag. -/
def l2cap_reconnect : SendOutcome := .reconnectionRaised

/-- `L2CAPClient.send`: not connected ⇒ `reconnect()` raises.  Otherwise
`attempt_send` either delivers, silently times out on persistent
would-block (errno 11), raises a `BluetoothError` (⇒ `reconnect()` raises,
making the recursive `self.send(data)` after it unreachable), or raises
some other exception which is re-raised. -/
def l2cap_send (st : L2CAPState) (oc : SockOutcome) : L2CAPState × SendOutcome :=
  if st.connected = false then
    (st, l2cap_reconnect)
  else
    match oc with
    | .delivered => (st, .sent)
    | .wouldBlock => (st, .dropped)
    | .btError => (st, l2cap_reconnect)
    | .otherError => (st, .exceptionRaised)

/-- `L2CAPClient.close`: `if self.connected: self.sock.close()`, then reset
both fields.  Returns `none` for the (unreachable) state holding
`connected` with no socket, where `self.sock.close()` would raise
`AttributeError`; otherwise `some` of the new state and whether the
underlying socket was released. -/
def l2cap_close (st : L2CAPState) : Option (L2CAPState × Bool) :=
  if st.connected then
    match st.sock with
    | some _ => some (⟨false, none⟩, true)
    | none => none
  else
    some (⟨false, none⟩, false)

/-- `L2CAPClient.connect`, abstracted over the socket-layer outcome `oc`
(`true` = the OS-level `sock.connect` succeeds): success stores the socket
and returns `self.connected = True`; any exception leaves the client
unconnected and raises `ConnectionFailureException` (`Except.error ()`). -/
def l2cap_connect (oc : Bool) : Except Unit Bool :=
  if oc then .ok true else .error ()

/-- `L2CAPConnectionManager.connect_all`:
`sum(client.connect() for client in self.clients.values())`, one outcome
per registered client in registration order; the first raised
`ConnectionFailureException` propagates (the `except` clause only logs and
re-raises). -/
def connect_all (outcomes : List Bool) : Except Unit Nat :=
  match outcomes with
  | [] => .ok 0
  | oc :: rest =>
    match l2cap_connect oc with
    | .error e => .error e
    | .ok b =>
      match connect_all rest with
      | .error e => .error e
      | .ok n => .ok ((if b then 1 else 0) + n)

/-- Execution state of a script run: how many `client.send` calls have been
attempted and the reports delivered so far, in order. -/
structure Exec where
  sent : Nat
  trace : List (List Nat)
deriving DecidableEq

/-- Exceptions that can escape a send inside the interpreter. -/
inductive Exn where
  | reconnectionRequired
  | otherExn
deriving DecidableEq

/-- One `client.send` under the failure schedule: at send index `failAt`
the client raises `ReconnectionRequiredException` (covering both the
unconnected case and a `BluetoothError` from the transport); every other
send is delivered. -/
def send_raw (failAt : Option Nat) (r : List Nat) (ex : Exec) : Except Exn Exec :=
  if failAt = some ex.sent then
    .error .reconnectionRequired
  else
    .ok ⟨ex.sent + 1, ex.trace ++ [r]⟩

/-- `client.send(client.encode_keyboard_input(*args))`; a failing
assertion in the encoder would surface as a non-reconnection exception. -/
def send_report (failAt : Option Nat) (args : List HidArg) (ex : Exec) : Except Exn Exec :=
  match encode_keyboard_input args with
  | some r => send_raw failAt r ex
  | none => .error .otherExn

/-- `L2CAPClient.send_keypress`: with arguments, press report then empty
release report; with no arguments, a single empty report. -/
def send_keypress (failAt : Option Nat) (args : List HidArg) (ex : Exec) :
    Except Exn Exec :=
  if args.isEmpty then
    send_report failAt [] ex
  else do
    let ex1 ← send_report failAt args ex
    send_report failAt [] ex1

/-- `L2CAPClient.send_keyboard_combination`: modifier+key press report,
then empty release report. -/
def send_keyboard_combination (failAt : Option Nat) (m k : Nat) (ex : Exec) :
    Except Exn Exec := do
  let ex1 ← send_report failAt [.mod m, .key k] ex
  send_report failAt [] ex1

/-- The raw `PRIVATE_BROWSER` press report:
`bytes([0xa1, 0x01, CTRL|SHIFT, 0x00, Key_Codes.n.value, 0, 0, 0, 0, 0, 0])`. -/
def private_browser_report : List Nat :=
  [0xa1, 0x01, 0x01 ||| 0x02, 0x00, 0x11, 0x00, 0x00, 0x00, 0x00, 0x00, 0x00]

/-- The raw `PRIVATE_BROWSER` release report. -/
def private_browser_release : List Nat :=
  [0xa1, 0x01, 0x00, 0x00, 0x00, 0x00, 0x00, 0x00, 0x00, 0x00, 0x00]

/-- `bytes.fromhex("a1010800190000000000")`. -/
def hid_report_gui_v : List Nat :=
  [0xa1, 0x01, 0x08, 0x00, 0x19, 0x00, 0x00, 0x00, 0x00, 0x00]

/-- `bytes.fromhex("a1010800195700000000")`. -/
def hid_report_up : List Nat :=
  [0xa1, 0x01, 0x08, 0x00, 0x19, 0x57, 0x00, 0x00, 0x00, 0x00]

/-- `bytes.fromhex("a1010000000000000000")`. -/
def hid_report_release : List Nat :=
  [0xa1, 0x01, 0x00, 0x00, 0x00, 0x00, 0x00, 0x00, 0x00, 0x00]

/-- Outcome of handling one `STRING` character (the body of the per-char
`try`, which catches only `AttributeError`). -/
inductive CharOutcome where
  | ok (ex : Exec)
  | attrError
  | exn (e : Exn)
deriving DecidableEq

/-- Lift a keypress send into a `CharOutcome`. -/
def kp_char (failAt : Option Nat) (args : List HidArg) (ex : Exec) : CharOutcome :=
  match send_keypress failAt args ex with
  | .ok ex' => .ok ex'
  | .error e => .exn e

/-- Lift a modifier+key combination send into a `CharOutcome`. -/
def combo_char (failAt : Option Nat) (m k : Nat) (ex : Exec) : CharOutcome :=
  match send_keyboard_combination failAt m k ex with
  | .ok ex' => .ok ex'
  | .error e => .exn e

/-- The per-character `if`/`elif` chain of the `STRING` handler, in source
order.  `getattr` failures are `AttributeError` (`attrError`); unsupported
characters that only log a warning are `ok` with no sends. -/
def handle_char (failAt : Option Nat) (c : Char) (ex : Exec) : CharOutcome :=
  if c.isDigit then
    match key_codes_attr (String.mk ['_', c]) with
    | some k => kp_char failAt [.key k] ex
    | none => .attrError
  else if c = ' ' then kp_char failAt [.key 0x2c] ex
  else if c = '[' then kp_char failAt [.key 0x2f] ex
  else if c = ']' then kp_char failAt [.key 0x30] ex
  else if c = ';' then kp_char failAt [.key 0x33] ex
  else if c = '\'' then kp_char failAt [.key 0x34] ex
  else if c = '/' then kp_char failAt [.key 0x38] ex
  else if c = '.' then kp_char failAt [.key 0x37] ex
  else if c = ',' then kp_char failAt [.key 0x36] ex
  else if c = '|' then kp_char failAt [.key 0x31] ex
  else if c = '-' then kp_char failAt [.key 0x2d] ex
  else if c = '=' then kp_char failAt [.key 0x2e] ex
  else if shift_required_characters.contains c then
    match char_to_key_code c with
    | some name =>
      match key_codes_attr name with
      | some k => combo_char failAt 0x02 k ex
      | none => .attrError
    | none => .ok ex
  else if c.isAlpha then
    match key_codes_attr (String.mk [c.toLower]) with
    | some k =>
      if c.isUpper then combo_char failAt 0x02 k ex
      else kp_char failAt [.key k] ex
    | none => .attrError
  else
    match char_to_key_code c with
    | some _name => kp_char failAt [.other] ex
    | none => .ok ex

/-- The `STRING` per-character loop: `enumerate(text, start=1)`, committing
`current_position := char_position` after each character that does not
raise; `AttributeError` skips the character without committing; any other
exception aborts, leaving the last committed position. -/
def process_string_chars (failAt : Option Nat) (text : List Char)
    (char_position current_position : Nat) (ex : Exec) : Nat × Except Exn Exec :=
  match text with
  | [] => (current_position, .ok ex)
  | c :: rest =>
    match handle_char failAt c ex with
    | .ok ex' => process_string_chars failAt rest (char_position + 1) char_position ex'
    | .attrError => process_string_chars failAt rest (char_position + 1) current_position ex
    | .exn e => (current_position, .error e)

/-- Observable outcome of the `DELAY` branch's `try`. -/
inductive DelayOutcome where
  | slept (ms : Int)
  | valueError
  | indexError
deriving DecidableEq

/-- `delay_time = int(line.split()[1]); time.sleep(delay_time / 1000)`:
a missing token raises `IndexError`; a non-integer token raises
`ValueError` from `int`; a negative value raises `ValueError` from
`time.sleep`; both are caught and logged. -/
def delay_action (line : PyStr) : DelayOutcome :=
  match py_split line with
  | _ :: t :: _ =>
    match py_int t with
    | some n => if n < 0 then .valueError else .slept n
    | none => .valueError
  | _ => .indexError

/-- The modifier substrings tested by
`any(mod in line for mod in ["SHIFT", "ALT", "CTRL", "GUI", "COMMAND", "WINDOWS"])`. -/
def modifier_names : List PyStr :=
  ["SHIFT".toList, "ALT".toList, "CTRL".toList, "GUI".toList,
   "COMMAND".toList, "WINDOWS".toList]

/-- A stripped line on which the loop body executes `continue`, skipping
the `current_line += 1` at the bottom of the loop: blank lines, `REM`
lines and `DELAY` lines. -/
def line_continues (l : PyStr) : Bool :=
  l.isEmpty || py_startswith l "REM".toList || py_startswith l "DELAY".toList

/-- Result of the loop body for one script line (after skip/slice/strip). -/
inductive LineResult where
  | continued (ex : Exec)
  | completed (ex : Exec)
  | failed (e : Exn) (pos : Nat)
deriving DecidableEq

/-- The three independent `if` checks at the top of the loop body:
`TAB`, `PRIVATE_BROWSER` and `VOLUME_UP` each send when their prefix
matches (they are not `elif`s in the source). -/
def pre_chain_step (failAt : Option Nat) (line : PyStr) (ex : Exec) :
    Except Exn Exec := do
  let ex1 ←
    if py_startswith line "TAB".toList then
      send_keypress failAt [.key 0x2b] ex
    else pure ex
  let ex2 ←
    if py_startswith line "PRIVATE_BROWSER".toList then do
      let exa ← send_raw failAt private_browser_report ex1
      send_raw failAt private_browser_release exa
    else pure ex1
  if py_startswith line "VOLUME_UP".toList then do
    let exa ← send_raw failAt hid_report_gui_v ex2
    let exb ← send_keypress failAt [.key 0x2b] exa
    let exc ← send_raw failAt hid_report_up exb
    send_raw failAt hid_report_release exc
  else pure ex2

/-- The `elif` chain closing the loop body: `STRING`, the modifier-chord
form (gated by substring containment of a modifier name), and `ENTER`;
a line matching none of them falls through to the bottom of the loop. -/
def elif_chain (failAt : Option Nat) (line : PyStr) (current_position : Nat)
    (ex2 : Exec) : LineResult :=
  if py_startswith line "STRING".toList then
    match process_string_chars failAt (line.drop 7) 1 current_position ex2 with
    | (_, .ok ex3) => .completed ex3
    | (p, .error e) => .failed e p
  else if modifier_names.any (fun m => py_contains line m) then
    match py_split line with
    | [modifier, keytok] =>
      match modifier_codes_attr (String.mk (py_upper modifier)) with
      | none => .completed ex2
      | some m =>
        match key_codes_attr (String.mk (py_lower keytok)) with
        | none => .completed ex2
        | some k =>
          match send_keyboard_combination failAt m k ex2 with
          | .ok ex3 => .completed ex3
          | .error e => .failed e current_position
    | _ => .completed ex2
  else if py_startswith line "ENTER".toList then
    match send_keypress failAt [.key 0x28] ex2 with
    | .ok ex3 => .completed ex3
    | .error e => .failed e current_position
  else
    .completed ex2

/-- One iteration of the line loop on the already sliced and stripped
`line`: blank/`REM` and `DELAY` lines `continue` without touching the
cursor; `TAB`, `PRIVATE_BROWSER` and `VOLUME_UP` run first as independent
`if`s; `STRING`, the modifier-chord form and `ENTER` form the `elif`
chain; an exception escaping the body carries the `current_position` at
that moment. -/
def process_line (failAt : Option Nat) (line : PyStr) (current_position : Nat)
    (ex : Exec) : LineResult :=
  if line.isEmpty || py_startswith line "REM".toList then
    .continued ex
  else
    match pre_chain_step failAt line ex with
    | .error e => .failed e current_position
    | .ok ex2 =>
      if py_startswith line "DELAY".toList then
        match delay_action line with
        | .slept _ => .continued ex2
        | .valueError => .continued ex2
        | .indexError => .continued ex2
      else
        elif_chain failAt line current_position ex2

/-- Final outcome of `process_duckyscript`. -/
inductive RunResult where
  | done (current_line current_position : Nat) (ex : Exec)
  | reconnectRaised (line pos : Nat)
  | swallowed
  | uncaught
deriving DecidableEq

/-- The `for line_number, line in enumerate(duckyscript)` loop inside the
`try`: skip lines before the cursor; slice the cursor line at the saved
character offset; on `ReconnectionRequiredException` re-raise it carrying
the current `(current_line, current_position)`; any other exception is
logged and swallowed. -/
def run_loop (failAt : Option Nat) (rest : List PyStr)
    (line_number current_line current_position : Nat) (ex : Exec) : RunResult :=
  match rest with
  | [] => .done current_line current_position ex
  | raw :: rest' =>
    if line_number < current_line then
      run_loop failAt rest' (line_number + 1) current_line current_position ex
    else
      match process_line failAt
          (py_strip (if line_number = current_line ∧ 0 < current_position then
            raw.drop current_position else raw))
          (if line_number = current_line ∧ 0 < current_position then
            current_position else 0) ex with
      | .continued ex' =>
        run_loop failAt rest' (line_number + 1) current_line
          (if line_number = current_line ∧ 0 < current_position then
            current_position else 0) ex'
      | .completed ex' => run_loop failAt rest' (line_number + 1) (current_line + 1) 0 ex'
      | .failed e p =>
        match e with
        | .reconnectionRequired => .reconnectRaised current_line p
        | .otherExn => .swallowed

/-- `process_duckyscript(client, duckyscript, current_line, current_position)`:
the initial `client.send_keypress('')` runs *before* the `try`; if it
raises `ReconnectionRequiredException`, the constructor-default cursor
`(0, 0)` propagates uncaught by this function's handlers; any other
exception there propagates out of the function entirely. -/
def process_duckyscript (failAt : Option Nat) (duckyscript : List PyStr)
    (current_line current_position : Nat) : RunResult :=
  match send_keypress failAt [.other] ⟨0, []⟩ with
  | .error .reconnectionRequired => .reconnectRaised 0 0
  | .error .otherExn => .uncaught
  | .ok ex1 => run_loop failAt duckyscript 0 current_line current_position ex1

/-! ## Claim C3: transport error during `send` -/

/-- C3 counterexample: a connected client that hits a `BluetoothError`
during `send` raises `ReconnectionRequired` but does **not** transition to
the `Unconnected` state — `connected` stays `true` (only `close`/`recv`
ever clear it), contradicting the claim that `connected` becomes false. -/
theorem send_error_keeps_connected_cex :
    (l2cap_send ⟨true, some ()⟩ .btError).2 = .reconnectionRaised ∧
    (l2cap_send ⟨true, some ()⟩ .btError).1.connected = true := by
  decide

/-- C3 amended: on a transport-level Bluetooth error during `send`, a
connected client raises `ReconnectionRequired` and leaves its own state
completely unchanged (in particular it stays marked connected and never
attempts to reconnect itself — `reconnect()` only raises). -/
theorem send_bt_error_raises_reconnection (st : L2CAPState)
    (hc : st.connected = true) :
    l2cap_send st .btError = (st, .reconnectionRaised) := by
  simp [l2cap_send, hc, l2cap_reconnect]

/-- Witness for `send_bt_error_raises_reconnection` at a concrete
connected state. -/
theorem send_bt_error_raises_reconnection_witness :
    l2cap_send ⟨true, some ()⟩ .btError = (⟨true, some ()⟩, .reconnectionRaised) :=
  send_bt_error_raises_reconnection ⟨true, some ()⟩ rfl

/-! ## Claim C4: HID report shape -/

/-- C4 counterexample: the encoder's report is 11 bytes
(4-byte header plus **seven** zero-padded keycode slots), not the claimed
9 bytes. -/
theorem encode_report_length_cex :
    encode_keyboard_input [] =
      some [0xa1, 0x01, 0x00, 0x00, 0x00, 0x00, 0x00, 0x00, 0x00, 0x00, 0x00] ∧
    ([0xa1, 0x01, 0x00, 0x00, 0x00, 0x00, 0x00, 0x00, 0x00, 0x00, 0x00] : List Nat).length ≠ 9 := by
  decide

/-- C4 amended: for at most 7 non-modifier keys plus any modifiers (each a
`Modifier_Codes` bitmask, hence a byte), the encoder returns the fixed
**11**-byte report `[0xA1, 0x01, modifierByte, 0x00, keycode slots]` with
the unused of its seven keycode slots zero-padded, and the OR-accumulated
modifier byte stays below 256. -/
theorem encode_report_shape (args : List HidArg)
    (h : (hid_keycodes args).length ≤ 7)
    (hm : ∀ v : Nat, HidArg.mod v ∈ args → v < 256) :
    encode_keyboard_input args =
      some ([0xa1, 0x01, hid_flags args, 0x00] ++
        (hid_keycodes args ++ List.replicate (7 - (hid_keycodes args).length) 0)) ∧
    ([0xa1, 0x01, hid_flags args, 0x00] ++
        (hid_keycodes args ++ List.replicate (7 - (hid_keycodes args).length) 0)).length = 11 ∧
    hid_flags args < 256 := by
  refine ⟨by simp [encode_keyboard_input, h], ?_, ?_⟩
  · simp [List.length_append]
    omega
  · have key : ∀ (l : List HidArg) (acc : Nat), acc < 256 →
        (∀ v : Nat, HidArg.mod v ∈ l → v < 256) →
        l.foldl (fun f a => match a with | .mod v => f ||| v | _ => f) acc < 256 := by
      intro l
      induction l with
      | nil => intro acc hacc _; simpa using hacc
      | cons a t ih =>
        intro acc hacc hl
        cases a with
        | key v => exact ih acc hacc (fun v hv => hl v (by simp [hv]))
        | mod v =>
          have hv : v < 256 := hl v (by simp)
          have : acc ||| v < 256 := by
            have h256 : (256 : Nat) = 2 ^ 8 := by norm_num
            rw [h256] at hacc hv ⊢
            exact Nat.or_lt_two_pow hacc hv
          exact ih (acc ||| v) this (fun v hv => hl v (by simp [hv]))
        | other => exact ih acc hacc (fun v hv => hl v (by simp [hv]))
    exact key args 0 (by norm_num) hm

/-- Witness for `encode_report_shape`: SHIFT plus the key `a`. -/
theorem encode_report_shape_witness :
    encode_keyboard_input [HidArg.mod 0x02, HidArg.key 0x04] =
      some [0xa1, 0x01, 0x02, 0x00, 0x04, 0, 0, 0, 0, 0, 0] ∧
    hid_flags [HidArg.mod 0x02, HidArg.key 0x04] < 256 := by
  have h := encode_report_shape [HidArg.mod 0x02, HidArg.key 0x04]
    (by decide) (by intro v hv; simp at hv; omega)
  exact ⟨h.1.trans (by decide), h.2.2⟩

/-! ## Claim C5: encoder bound -/

/-- C5: with 8 or more non-modifier keys the encoder's
`assert(len(keycodes) <= 7)` fails (modelled as `none`); with exactly 7 it
succeeds with no zero padding appended; with at most 7 the assertion holds
and the failure branch is unreachable. -/
theorem encode_bound :
    (∀ args : List HidArg, 8 ≤ (hid_keycodes args).length →
      encode_keyboard_input args = none) ∧
    (∀ args : List HidArg, (hid_keycodes args).length = 7 →
      encode_keyboard_input args =
        some ([0xa1, 0x01, hid_flags args, 0x00] ++ hid_keycodes args)) ∧
    (∀ args : List HidArg, (hid_keycodes args).length ≤ 7 →
      (encode_keyboard_input args).isSome = true) := by
  refine ⟨?_, ?_, ?_⟩
  · intro args h
    simp [encode_keyboard_input]
    omega
  · intro args h
    simp [encode_keyboard_input, h]
  · intro args h
    simp [encode_keyboard_input, h]

/-- Witness for `encode_bound` at 8, 7 and 1 keys. -/
theorem encode_bound_witness :
    encode_keyboard_input (List.replicate 8 (HidArg.key 4)) = none ∧
    encode_keyboard_input (List.replicate 7 (HidArg.key 4)) =
      some [0xa1, 0x01, 0, 0x00, 4, 4, 4, 4, 4, 4, 4] ∧
    (encode_keyboard_input [HidArg.key 4]).isSome = true :=
  ⟨encode_bound.1 _ (by decide),
   (encode_bound.2.1 _ (by decide)).trans (by decide),
   encode_bound.2.2 [HidArg.key 4] (by decide)⟩

/-! ## Claim C9: `close` idempotence -/

/-- C9: `close` always yields the `Unconnected` state (`connected = false`,
no socket held), releasing the socket exactly when the client was
connected, and a second `close` from that state is a no-op producing the
identical state and releasing nothing — closing twice equals closing once.
The hypothesis is the client invariant (every state the program constructs
holds a socket while connected), excluding only the unreachable
`connected`-without-socket state. -/
theorem close_idempotent (st : L2CAPState)
    (hwf : st.connected = true → st.sock.isSome = true) :
    l2cap_close st = some (⟨false, none⟩, st.connected) ∧
    l2cap_close ⟨false, none⟩ = some (⟨false, none⟩, false) := by
  obtain ⟨c, s⟩ := st
  cases c
  · exact ⟨rfl, rfl⟩
  · have := hwf rfl
    cases s with
    | none => simp at this
    | some u => exact ⟨rfl, rfl⟩

/-- Witness for `close_idempotent` at a concrete connected client. -/
theorem close_idempotent_witness :
    l2cap_close ⟨true, some ()⟩ = some (⟨false, none⟩, true) ∧
    l2cap_close ⟨false, none⟩ = some (⟨false, none⟩, false) :=
  close_idempotent ⟨true, some ()⟩ (fun _ => rfl)

/-! ## Claim C10: failure of the pre-`try` empty keypress -/

/-- C10: if the initial `client.send_keypress('')` — executed before the
interpreter's `try` block — raises `ReconnectionRequiredException`
(covering both an unconnected client and a transport error on either of
its two sends, indices 0 and 1), the exception that propagates carries the
constructor-default cursor `(0, 0)` whatever saved cursor `(L, k)` the run
was started with, so the controller's saved resume position is discarded
and replay restarts from the beginning of the script. -/
theorem pretry_failure_resets_cursor (F : Nat) (script : List PyStr)
    (L k : Nat) (hF : F ≤ 1) :
    process_duckyscript (some F) script L k = .reconnectRaised 0 0 := by
  interval_cases F
  · rfl
  · rfl

/-- Witness for `pretry_failure_resets_cursor`: saved cursor `(3, 2)` is
discarded. -/
theorem pretry_failure_resets_cursor_witness :
    process_duckyscript (some 0) ["STRING AB".toList] 3 2 = .reconnectRaised 0 0 :=
  pretry_failure_resets_cursor 0 ["STRING AB".toList] 3 2 (by decide)

/-! ## Claim C2: resuming a `STRING` line at a saved character offset -/

/-- C2 (code bug): with the script `["STRING AB"]`, a transport failure at
send index 4 (the press report of `'B'`) makes the first run raise the
cursor `(0, 1)` as the spec says; but a fresh run resumed from `(0, 1)`
slices the *raw line* to `"TRING AB"`, which no longer matches the
`STRING` prefix (or any other command), so the resumed run completes while
sending **nothing** beyond the initial empty keypress — in particular no
report carrying keycode `0x05` (`'b'`), instead of sending `'B'` as the
resume design intends. -/
theorem resume_after_offset_sends_nothing :
    process_duckyscript (some 4) ["STRING AB".toList] 0 0 = .reconnectRaised 0 1 ∧
    process_duckyscript none ["STRING AB".toList] 0 1 =
      .done 1 0 ⟨2, [[0xa1, 0x01, 0, 0, 0, 0, 0, 0, 0, 0, 0],
                     [0xa1, 0x01, 0, 0, 0, 0, 0, 0, 0, 0, 0]]⟩ ∧
    (([[0xa1, 0x01, 0, 0, 0, 0, 0, 0, 0, 0, 0],
       [0xa1, 0x01, 0, 0, 0, 0, 0, 0, 0, 0, 0]] : List (List Nat)).all
      (fun r => !r.contains 0x05)) = true := by
  refine ⟨by decide, by decide, by decide⟩

/-! ## Helper lemmas -/

/-- A list with a boolean prefix decomposes as that prefix plus a tail. -/
theorem isPrefixOf_shape (p l : PyStr) (h : List.isPrefixOf p l = true) :
    ∃ t, l = p ++ t := by
  induction p generalizing l with
  | nil => exact ⟨l, rfl⟩
  | cons a as ih =>
    cases l with
    | nil => simp [List.isPrefixOf] at h
    | cons b bs =>
      simp only [List.isPrefixOf, Bool.and_eq_true, beq_iff_eq] at h
      obtain ⟨t, ht⟩ := ih bs h.2
      exact ⟨t, by simp [h.1, ht]⟩

/-- Blank and `REM` lines take the `continue` before any sends. -/
theorem blank_rem_continued (failAt : Option Nat) (l : PyStr) (pos : Nat)
    (ex : Exec) (h : (l.isEmpty || py_startswith l "REM".toList) = true) :
    process_line failAt l pos ex = .continued ex := by
  rw [process_line, if_pos h]

/-- A `DELAY` line performs no sends (no other prefix gate matches) and
takes the `continue` at the end of its branch, whatever the parse
outcome. -/
theorem delay_line_continued_aux (failAt : Option Nat) (l : PyStr) (pos : Nat)
    (ex : Exec) (hdel : py_startswith l "DELAY".toList = true) :
    process_line failAt l pos ex = .continued ex := by
  obtain ⟨t, ht⟩ := isPrefixOf_shape _ _ hdel
  subst ht
  show process_line failAt ('D' :: 'E' :: 'L' :: 'A' :: 'Y' :: t) pos ex =
    .continued ex
  have e1 : py_startswith ('D' :: 'E' :: 'L' :: 'A' :: 'Y' :: t)
      ['T', 'A', 'B'] = false := rfl
  have e2 : py_startswith ('D' :: 'E' :: 'L' :: 'A' :: 'Y' :: t)
      ['P', 'R', 'I', 'V', 'A', 'T', 'E', '_', 'B', 'R', 'O', 'W', 'S', 'E', 'R'] = false := rfl
  have e3 : py_startswith ('D' :: 'E' :: 'L' :: 'A' :: 'Y' :: t)
      ['V', 'O', 'L', 'U', 'M', 'E', '_', 'U', 'P'] = false := rfl
  have e4 : py_startswith ('D' :: 'E' :: 'L' :: 'A' :: 'Y' :: t)
      ['R', 'E', 'M'] = false := rfl
  have e5 : py_startswith ('D' :: 'E' :: 'L' :: 'A' :: 'Y' :: t)
      ['D', 'E', 'L', 'A', 'Y'] = true := by
    simp [py_startswith, List.isPrefixOf]
  have hstep : pre_chain_step failAt ('D' :: 'E' :: 'L' :: 'A' :: 'Y' :: t) ex =
      .ok ex := by
    simp [pre_chain_step, e1, e2, e3]
    rfl
  simp [process_line, e4, e5, hstep]
  cases delay_action ('D' :: 'E' :: 'L' :: 'A' :: 'Y' :: t) <;> simp

/-- Every arm of the `elif` chain produces `completed` or `failed`, never
`continued`. -/
theorem elif_chain_not_continued (failAt : Option Nat) (l : PyStr) (pos : Nat)
    (ex2 ex' : Exec) : elif_chain failAt l pos ex2 ≠ .continued ex' := by
  unfold elif_chain
  split
  · rcases process_string_chars failAt (l.drop 7) 1 pos ex2 with ⟨p, r⟩
    cases r <;> simp
  · split
    · rcases hs : py_split l with _ | ⟨a, _ | ⟨b, _ | ⟨c, rest⟩⟩⟩ <;> simp
      · cases modifier_codes_attr (String.mk (py_upper a)) <;> simp
        cases key_codes_attr (String.mk (py_lower b)) <;> simp
        rcases send_keyboard_combination failAt _ _ ex2 with e | ex3 <;> simp
    · split
      · rcases send_keypress failAt [.key 0x28] ex2 with e | ex3 <;> simp
      · simp

/-- If the loop body of a line returns `continued`, the line is a blank,
`REM` or `DELAY` line. -/
theorem process_line_continued_char (failAt : Option Nat) (l : PyStr)
    (pos : Nat) (ex ex' : Exec)
    (h : process_line failAt l pos ex = .continued ex') :
    line_continues l = true := by
  by_cases hb : (l.isEmpty || py_startswith l "REM".toList) = true
  · simp [line_continues]
    simp at hb
    tauto
  · by_cases hd : py_startswith l "DELAY".toList = true
    · have hd' : py_startswith l ['D', 'E', 'L', 'A', 'Y'] = true := hd
      simp [line_continues, hd']
    · exfalso
      rw [process_line, if_neg hb] at h
      cases hpc : pre_chain_step failAt l ex with
      | error e =>
        simp only [hpc] at h
        exact LineResult.noConfusion h
      | ok ex2 =>
        simp only [hpc] at h
        rw [if_neg hd] at h
        exact elif_chain_not_continued failAt l pos ex2 ex' h

/-- If the loop body of a line returns `completed`, the line is none of the
blank, `REM`, `DELAY` lines (the ones whose `continue` skips the
`current_line += 1`). -/
theorem process_line_completed_char (failAt : Option Nat) (l : PyStr)
    (pos : Nat) (ex ex' : Exec)
    (h : process_line failAt l pos ex = .completed ex') :
    line_continues l = false := by
  by_cases hb : (l.isEmpty || py_startswith l "REM".toList) = true
  · rw [blank_rem_continued failAt l pos ex hb] at h
    simp at h
  · by_cases hd : py_startswith l "DELAY".toList = true
    · rw [delay_line_continued_aux failAt l pos ex hd] at h
      simp at h
    · unfold line_continues
      cases h1 : l.isEmpty with
      | true => exact absurd (by rw [h1]; simp) hb
      | false =>
        cases h2 : py_startswith l "REM".toList with
        | true => exact absurd (by rw [h2]; simp) hb
        | false =>
          cases h3 : py_startswith l "DELAY".toList with
          | true => exact absurd h3 hd
          | false => simp [h1, h2, h3]

/-- `process_string_chars` over a concatenation runs the first part, then
(on success) the second from the committed position and shifted
enumeration index. -/
theorem process_string_chars_append (failAt : Option Nat) (xs ys : List Char)
    (i p : Nat) (ex : Exec) :
    process_string_chars failAt (xs ++ ys) i p ex =
      match process_string_chars failAt xs i p ex with
      | (p', .ok ex') => process_string_chars failAt ys (i + xs.length) p' ex'
      | (p', .error e) => (p', .error e) := by
  induction xs generalizing i p ex with
  | nil => simp [process_string_chars]
  | cons c rest ih =>
    simp only [List.cons_append, List.length_cons, process_string_chars]
    cases hc : handle_char failAt c ex with
    | ok ex2 =>
      simp only [hc, List.append_eq]
      rw [ih]
      have harith : i + 1 + rest.length = i + (rest.length + 1) := by omega
      rw [harith]
    | attrError =>
      simp only [hc, List.append_eq]
      rw [ih]
      have harith : i + 1 + rest.length = i + (rest.length + 1) := by omega
      rw [harith]
    | exn e => simp only [hc]

/-- `run_loop` over a concatenation runs the first part; if it falls off
the end, the second part continues from the reached cursor and state. -/
theorem run_loop_append (failAt : Option Nat) (pre rest : List PyStr)
    (ln cl pos : Nat) (ex : Exec) :
    run_loop failAt (pre ++ rest) ln cl pos ex =
      match run_loop failAt pre ln cl pos ex with
      | .done cl' pos' ex' => run_loop failAt rest (ln + pre.length) cl' pos' ex'
      | .reconnectRaised l p => .reconnectRaised l p
      | .swallowed => .swallowed
      | .uncaught => .uncaught := by
  induction pre generalizing ln cl pos ex with
  | nil => simp [run_loop]
  | cons raw pre' ih =>
    simp only [List.cons_append, List.length_cons, run_loop]
    by_cases h : ln < cl
    · simp only [if_pos h, List.append_eq]
      rw [ih]
      have harith : ln + 1 + pre'.length = ln + (pre'.length + 1) := by omega
      rw [harith]
    · simp only [if_neg h]
      cases hpl : process_line failAt
          (py_strip (if ln = cl ∧ 0 < pos then raw.drop pos else raw))
          (if ln = cl ∧ 0 < pos then pos else 0) ex with
      | continued ex2 =>
        simp only [hpl, List.append_eq]
        rw [ih]
        have harith : ln + 1 + pre'.length = ln + (pre'.length + 1) := by omega
        rw [harith]
      | completed ex2 =>
        simp only [hpl, List.append_eq]
        rw [ih]
        have harith : ln + 1 + pre'.length = ln + (pre'.length + 1) := by omega
        rw [harith]
      | failed e p =>
        simp only [hpl]
        cases e <;> rfl

/-- Falling off the end of the loop from a fresh position (`pos = 0`, no
slicing) advances `current_line` by exactly the number of processed lines
that are not blank/`REM`/`DELAY`, and leaves the position 0: the line
counter ignores `continue`-lines. -/
theorem run_loop_done_lag (failAt : Option Nat) (pre : List PyStr) :
    ∀ ln cl ex cl' p' ex', cl ≤ ln →
      run_loop failAt pre ln cl 0 ex = .done cl' p' ex' →
      cl' = cl + pre.countP (fun l => !line_continues (py_strip l)) ∧ p' = 0 := by
  induction pre with
  | nil =>
    intro ln cl ex cl' p' ex' hle h
    simp [run_loop] at h
    simp [← h.1, ← h.2.1]
  | cons raw pre' ih =>
    intro ln cl ex cl' p' ex' hle h
    rw [run_loop] at h
    have hnl : ¬ ln < cl := by omega
    rw [if_neg hnl] at h
    have hcond : ¬ (ln = cl ∧ 0 < 0) := by simp
    simp only [if_neg hcond] at h
    cases hpl : process_line failAt (py_strip raw) 0 ex with
    | continued ex2 =>
      simp only [hpl] at h
      have hc := process_line_continued_char _ _ _ _ _ hpl
      obtain ⟨h1, h2⟩ := ih (ln + 1) cl ex2 cl' p' ex' (by omega) h
      refine ⟨?_, h2⟩
      rw [h1]
      simp [List.countP_cons, hc]
    | completed ex2 =>
      simp only [hpl] at h
      have hc := process_line_completed_char _ _ _ _ _ hpl
      obtain ⟨h1, h2⟩ := ih (ln + 1) (cl + 1) ex2 cl' p' ex' (by omega) h
      refine ⟨?_, h2⟩
      rw [h1]
      simp [List.countP_cons, hc]
      omega
    | failed e p =>
      simp only [hpl] at h
      cases e <;> simp at h

/-! ## Claim C6: connection batch atomicity -/

/-- C6: `connect_all` raises `ConnectionFailure` exactly when some
registered client's connect fails, and succeeds (returning the count of
connected clients) exactly when every registered client connects. -/
theorem connect_all_atomic (outcomes : List Bool) :
    (connect_all outcomes = .error () ↔ ∃ b ∈ outcomes, b = false) ∧
    ((∀ b ∈ outcomes, b = true) → connect_all outcomes = .ok outcomes.length) := by
  induction outcomes with
  | nil =>
    constructor
    · simp [connect_all]
    · intro _; simp [connect_all]
  | cons oc rest ih =>
    cases oc
    · constructor
      · constructor
        · intro _; exact ⟨false, by simp, rfl⟩
        · intro _; simp [connect_all, l2cap_connect]
      · intro h
        have := h false (by simp)
        simp at this
    · constructor
      · constructor
        · intro h
          rcases hr : connect_all rest with e | n
          · obtain ⟨b, hb, hbf⟩ := ih.1.mp (by cases e; exact hr)
            exact ⟨b, by simp [hb], hbf⟩
          · simp [connect_all, l2cap_connect, hr] at h
        · rintro ⟨b, hb, hbf⟩
          simp at hb
          rcases hb with hb | hb
          · rw [hb] at hbf; simp at hbf
          · have herr := ih.1.mpr ⟨b, hb, hbf⟩
            simp [connect_all, l2cap_connect, herr]
      · intro h
        have hrest : ∀ b ∈ rest, b = true := fun b hb => h b (by simp [hb])
        have hok := ih.2 hrest
        simp [connect_all, l2cap_connect, hok]
        omega

/-- Witness for `connect_all_atomic`: one failing client fails the batch
of three; an all-successful batch of two connects both. -/
theorem connect_all_atomic_witness :
    connect_all [true, false, true] = .error () ∧
    connect_all [true, true] = .ok 2 :=
  ⟨(connect_all_atomic [true, false, true]).1.mpr ⟨false, by simp, rfl⟩,
   (connect_all_atomic [true, true]).2 (by simp)⟩

/-! ## Claim C7: unknown commands are silently ignored -/

/-- C7: a stripped line matching none of the recognised command gates —
not `REM`, `TAB`, `PRIVATE_BROWSER`, `VOLUME_UP`, `DELAY`, `STRING`, not
containing any of the modifier substrings that gate the chord form, and
not `ENTER` — produces no sends (the execution state is returned
untouched), raises nothing, and the loop simply proceeds to the next line
(`continued` for a blank line, `completed` otherwise; both make `run_loop`
move on). -/
theorem unknown_command_no_effect (failAt : Option Nat) (line : PyStr)
    (pos : Nat) (ex : Exec)
    (hrem : py_startswith line "REM".toList = false)
    (htab : py_startswith line "TAB".toList = false)
    (hpb : py_startswith line "PRIVATE_BROWSER".toList = false)
    (hvol : py_startswith line "VOLUME_UP".toList = false)
    (hdel : py_startswith line "DELAY".toList = false)
    (hstr : py_startswith line "STRING".toList = false)
    (hmod : modifier_names.any (fun m => py_contains line m) = false)
    (hent : py_startswith line "ENTER".toList = false) :
    process_line failAt line pos ex =
      (if line.isEmpty then .continued ex else .completed ex) := by
  have hrem' : py_startswith line ['R', 'E', 'M'] = false := hrem
  have htab' : py_startswith line ['T', 'A', 'B'] = false := htab
  have hpb' : py_startswith line
      ['P', 'R', 'I', 'V', 'A', 'T', 'E', '_', 'B', 'R', 'O', 'W', 'S', 'E', 'R'] = false := hpb
  have hvol' : py_startswith line ['V', 'O', 'L', 'U', 'M', 'E', '_', 'U', 'P'] = false := hvol
  have hdel' : py_startswith line ['D', 'E', 'L', 'A', 'Y'] = false := hdel
  have hstr' : py_startswith line ['S', 'T', 'R', 'I', 'N', 'G'] = false := hstr
  have hent' : py_startswith line ['E', 'N', 'T', 'E', 'R'] = false := hent
  have hstep : pre_chain_step failAt line ex = .ok ex := by
    simp [pre_chain_step, htab', hpb', hvol']
    rfl
  by_cases he : line.isEmpty
  · simp [process_line, he]
  · simp [process_line, elif_chain, he, hrem', hstep, hdel', hstr', hmod, hent']

/-- Witness for `unknown_command_no_effect` at the line `FOOBAR xyz`. -/
theorem unknown_command_no_effect_witness :
    process_line none "FOOBAR xyz".toList 0 ⟨0, []⟩ = .completed ⟨0, []⟩ := by
  have h := unknown_command_no_effect none "FOOBAR xyz".toList 0 ⟨0, []⟩
    (by decide) (by decide) (by decide) (by decide) (by decide) (by decide)
    (by decide) (by decide)
  exact h.trans (by decide)

/-! ## Claim C8: `DELAY` parsing never raises -/

/-- C8: a `DELAY` line never raises: the loop body always ends in
`continue` with the execution state untouched, and within its `try`, a
missing argument hits the caught `IndexError`, a non-integer argument hits
the caught `ValueError`, and a valid non-negative integer argument `n`
suspends execution for `n` milliseconds — in every case execution proceeds
to the next line. -/
theorem delay_line_behaviour (failAt : Option Nat) (line : PyStr) (pos : Nat)
    (ex : Exec) (hdel : py_startswith line "DELAY".toList = true) :
    process_line failAt line pos ex = .continued ex ∧
    ((py_split line).length ≤ 1 → delay_action line = .indexError) ∧
    (∀ t0 tk rest, py_split line = t0 :: tk :: rest → py_int tk = none →
      delay_action line = .valueError) ∧
    (∀ t0 tk rest n, py_split line = t0 :: tk :: rest → py_int tk = some n →
      0 ≤ n → delay_action line = .slept n) := by
  refine ⟨delay_line_continued_aux failAt line pos ex hdel, ?_, ?_, ?_⟩
  · intro hlen
    unfold delay_action
    rcases hs : py_split line with _ | ⟨a, _ | ⟨b, rest⟩⟩
    · rfl
    · rfl
    · rw [hs] at hlen
      simp at hlen
  · intro t0 tk rest hsplit hnone
    unfold delay_action
    rw [hsplit]
    simp [hnone]
  · intro t0 tk rest n hsplit hn hpos
    unfold delay_action
    rw [hsplit]
    have hnn : ¬ n < 0 := by omega
    simp [hn, hnn]

/-- Witness for `delay_line_behaviour` at the line `DELAY 250`. -/
theorem delay_line_behaviour_witness :
    process_line none "DELAY 250".toList 0 ⟨0, []⟩ = .continued ⟨0, []⟩ ∧
    delay_action "DELAY 250".toList = .slept 250 := by
  have h := delay_line_behaviour none "DELAY 250".toList 0 ⟨0, []⟩ (by decide)
  exact ⟨h.1, h.2.2.2 "DELAY".toList "250".toList [] 250 (by decide) (by decide)
    (by decide)⟩

/-! ## Claim C1: the cursor carried by a mid-`STRING` transport failure -/

/-- C1 counterexample: in the script `["REM x", "STRING AB"]`, the
`STRING` line has enumerate index 1, and send index 4 is the press report
of its character `'B'` (character offset k = 1).  A transport failure
there propagates the cursor `(0, 1)`, not the claimed `(L, k) = (1, 1)`:
the `continue` taken on the `REM` line skips the `current_line += 1` at
the bottom of the loop, so the carried line index lags the enumerate
index. -/
theorem cursor_line_lag_cex :
    process_duckyscript (some 4) ["REM x".toList, "STRING AB".toList] 0 0 =
      .reconnectRaised 0 1 ∧
    RunResult.reconnectRaised 0 1 ≠ RunResult.reconnectRaised 1 1 := by
  refine ⟨by decide, by decide⟩

/-- C1 amended: started from cursor `(0, 0)`, if the transport fails while
the interpreter is sending character `k` (0-based, counted over the
`STRING` line's text `line[7:]`, all earlier characters of that line
having been handled without the caught-`AttributeError` skip) of the line
with enumerate index `L = pre.length`, the propagated
`ReconnectionRequiredException` carries the cursor `(L − b, k)` — here
written with the carried line equal to the count of processed lines that
are not blank/`REM`/`DELAY`, i.e. `b` is the number of such
`continue`-lines before line `L`.  The cursor equals the claimed `(L, k)`
exactly when `b = 0`.  The hypotheses pin the failure point
operationally: the initial keypress and the lines before `L` run without
failure, the first `k` characters of the `STRING` text complete with
position `k` committed, and handling character `k` raises the
reconnection signal. -/
theorem cursor_on_midstring_failure
    (F : Nat) (pre post : List PyStr) (ln0 : PyStr) (text : List Char)
    (k : Nat) (c : Char) (ex1 ex' ex'' : Exec) (cl' : Nat)
    (h0 : send_keypress (some F) [.other] ⟨0, []⟩ = .ok ex1)
    (h1 : run_loop (some F) pre 0 0 0 ex1 = .done cl' 0 ex')
    (h2 : py_strip ln0 = "STRING ".toList ++ text)
    (h3 : process_string_chars (some F) (text.take k) 1 0 ex' = (k, .ok ex''))
    (h4 : text.get? k = some c)
    (h5 : handle_char (some F) c ex'' = .exn .reconnectionRequired) :
    process_duckyscript (some F) (pre ++ ln0 :: post) 0 0 =
      .reconnectRaised (pre.countP (fun l => !line_continues (py_strip l))) k := by
  obtain ⟨hcl, -⟩ := run_loop_done_lag (some F) pre 0 0 ex1 cl' 0 ex' (le_refl 0) h1
  obtain ⟨hklt, hget⟩ := List.get?_eq_some.mp h4
  have hdecomp : text = text.take k ++ c :: text.drop (k + 1) := by
    have h6 := List.take_append_drop k text
    rw [List.drop_eq_getElem_cons hklt] at h6
    rw [show text[k] = c from hget] at h6
    exact h6.symm
  have hpsc : process_string_chars (some F) text 1 0 ex' =
      (k, .error .reconnectionRequired) := by
    rw [hdecomp, process_string_chars_append]
    simp only [h3]
    have hlen : (text.take k).length = k := by
      simp [List.length_take]
      omega
    rw [hlen]
    simp only [process_string_chars, h5]
  have hline : "STRING ".toList ++ text =
      'S' :: 'T' :: 'R' :: 'I' :: 'N' :: 'G' :: ' ' :: text := rfl
  have erem : py_startswith ('S' :: 'T' :: 'R' :: 'I' :: 'N' :: 'G' :: ' ' :: text)
      ['R', 'E', 'M'] = false := rfl
  have etab : py_startswith ('S' :: 'T' :: 'R' :: 'I' :: 'N' :: 'G' :: ' ' :: text)
      ['T', 'A', 'B'] = false := rfl
  have epb : py_startswith ('S' :: 'T' :: 'R' :: 'I' :: 'N' :: 'G' :: ' ' :: text)
      ['P', 'R', 'I', 'V', 'A', 'T', 'E', '_', 'B', 'R', 'O', 'W', 'S', 'E', 'R'] = false := rfl
  have evol : py_startswith ('S' :: 'T' :: 'R' :: 'I' :: 'N' :: 'G' :: ' ' :: text)
      ['V', 'O', 'L', 'U', 'M', 'E', '_', 'U', 'P'] = false := rfl
  have edel : py_startswith ('S' :: 'T' :: 'R' :: 'I' :: 'N' :: 'G' :: ' ' :: text)
      ['D', 'E', 'L', 'A', 'Y'] = false := rfl
  have estr : py_startswith ('S' :: 'T' :: 'R' :: 'I' :: 'N' :: 'G' :: ' ' :: text)
      ['S', 'T', 'R', 'I', 'N', 'G'] = true := by
    simp [py_startswith, List.isPrefixOf]
  have hstep : pre_chain_step (some F)
      ('S' :: 'T' :: 'R' :: 'I' :: 'N' :: 'G' :: ' ' :: text) ex' = .ok ex' := by
    simp [pre_chain_step, etab, epb, evol]
    rfl
  have hproc : process_line (some F)
      ('S' :: 'T' :: 'R' :: 'I' :: 'N' :: 'G' :: ' ' :: text) 0 ex' =
      .failed .reconnectionRequired k := by
    simp [process_line, erem, hstep, edel, elif_chain, estr, hpsc]
  unfold process_duckyscript
  simp only [h0]
  rw [run_loop_append]
  simp only [h1]
  simp only [run_loop]
  have hle : pre.countP (fun l => !line_continues (py_strip l)) ≤ pre.length :=
    List.countP_le_length _
  have hskip : ¬ (0 + pre.length < cl') := by omega
  rw [if_neg hskip]
  have hcond : ¬ (0 + pre.length = cl' ∧ (0 : Nat) < 0) := by simp
  simp only [if_neg hcond]
  rw [h2, hline]
  simp only [hproc]
  simp [hcl]

/-- Witness for `cursor_on_midstring_failure`: the script
`["REM Y", "STRING AB"]` with the transport failing at send index 4 (the
press report of `'B'`, character offset 1 of line 1) propagates the cursor
`(0, 1)`: one `continue`-line precedes, so `L − b = 1 − 1 = 0`. -/
theorem cursor_on_midstring_failure_witness :
    process_duckyscript (some 4) ["REM Y".toList, "STRING AB".toList] 0 0 =
      .reconnectRaised 0 1 := by
  have h := cursor_on_midstring_failure 4 ["REM Y".toList] [] "STRING AB".toList
    "AB".toList 1 'B'
    ⟨2, [[0xa1, 0x01, 0, 0, 0, 0, 0, 0, 0, 0, 0],
         [0xa1, 0x01, 0, 0, 0, 0, 0, 0, 0, 0, 0]]⟩
    ⟨2, [[0xa1, 0x01, 0, 0, 0, 0, 0, 0, 0, 0, 0],
         [0xa1, 0x01, 0, 0, 0, 0, 0, 0, 0, 0, 0]]⟩
    ⟨4, [[0xa1, 0x01, 0, 0, 0, 0, 0, 0, 0, 0, 0],
         [0xa1, 0x01, 0, 0, 0, 0, 0, 0, 0, 0, 0],
         [0xa1, 0x01, 0x02, 0, 0x04, 0, 0, 0, 0, 0, 0],
         [0xa1, 0x01, 0, 0, 0, 0, 0, 0, 0, 0, 0]]⟩
    0 rfl (by decide) (by decide) rfl (by decide) (by decide)
  exact h.trans (by decide)

end BlueDucky
